import Mathlib

/-!
Shallow embedding of the libdragon command-queue sources:
  * src/src/dl/dl.c        - the RSP display-list double-buffer transport
  * src/include/rdpq.h     - the RDP command id table and autosync bit masks
  * src/src/GL/gl.c        - GL state toggles and the matrix stacks
Machine integers are modelled as Nat with explicit truncation where the C
code truncates; pointers into the two DRAM buffers are modelled as a pair of
a buffer selector (Bool, mirroring the 0/1 value of dl_buf_idx) and a word
offset.  Writes to the SP_STATUS hardware register and the RSP-control calls
made by dl_start are modelled as logs of abstract events, since each C
expression written to SP_STATUS is a distinct constant word.
-/

/-- The distinct constant words dl.c writes to the SP_STATUS register.
`doorbell` is `SP_WSTATUS_SET_SIG7 | SP_WSTATUS_CLEAR_HALT | SP_WSTATUS_CLEAR_BROKE`
(dl.c lines 161 and 179), `clearAllSignals` is the or of the eight
`SP_WSTATUS_CLEAR_SIGn` bits written by dl_start (lines 143-150), and
`setHalt` is `SP_WSTATUS_SET_HALT` written by dl_close (line 77). -/
inductive StatusWrite where
  | doorbell
  | clearAllSignals
  | setHalt
  deriving DecidableEq, BEq, Repr

/-- Observable RSP-control side effects of dl_start, in program order:
`rsp_wait`, `rsp_load(&rsp_dl)`, `rsp_load_data` of dl_data (the overlay
table and descriptors), `rsp_load_data` of the static dummy overlay header,
and `rsp_run_async`. -/
inductive DLEvent where
  | rspWait
  | rspLoadUcode
  | pushStateTable
  | pushDummyHeader
  | runAsync
  deriving DecidableEq, BEq, Repr

/-- The overlay descriptor `dl_overlay_t` of dl.c (lines 16-22); the four
address-valued fields hold physical addresses, the size fields are uint16_t. -/
structure dl_overlay_t where
  code : Nat
  data : Nat
  data_buf : Nat
  code_size : Nat
  data_size : Nat
  deriving DecidableEq, Repr

/-- The parts of an `rsp_ucode_t` that dl.c reads.  `state_start` stands for
the `state_start` field of the `dl_overlay_header_t` that sits at the start
of the data segment of the ucode (dl.c line 83 reads it through the data
pointer). -/
structure rsp_ucode_t where
  code : Nat
  code_end : Nat
  data : Nat
  data_end : Nat
  state_start : Nat
  deriving DecidableEq, Repr

/-- Compile-time and link-time constants that dl.c uses.
`bufSize` is DL_DRAM_BUFFER_SIZE and `maxCmd` is DL_MAX_COMMAND_SIZE
(both defined in dl_internal.h, which is not among the sources);
`physBase b` is `PhysicalAddr(dl_buffers[b])`; `dlUcodeSize` is
`rsp_dl_text_end - rsp_dl_text_start` (line 99); `maxOverlayCount` is
DL_MAX_OVERLAY_COUNT; `dummyStateAddr` is the address of
`dummy_overlay_state`.  Modelled from the spec: the spec describes the two
buffers as fixed-size word arrays with a sentinel DL_MAX_COMMAND_SIZE words
before the end, and `termWord` models the terminator word that the
(missing) `dl_terminator` macro stores at a pointer. -/
structure DLConfig where
  bufSize : Nat
  maxCmd : Nat
  physBase : Bool → Nat
  termWord : Nat
  dlUcodeSize : Nat
  maxOverlayCount : Nat
  dummyStateAddr : Nat

/-- The mutable state of dl.c: the two word buffers `dl_buffers`, the active
buffer index `dl_buf_idx` (Bool for the values 0/1, `1 - dl_buf_idx` is
negation), the write cursor `dl_cur_pointer` and `dl_sentinel` as word
offsets into the active buffer, the log of SP_STATUS writes, the log of
RSP-control events, `dl_is_running`, `dl_overlay_count`, the overlay
descriptor array of dl_data, and `dl_data.dl_dram_addr`. -/
structure DLState where
  buffers : Bool → Nat → Nat
  buf_idx : Bool
  cur : Nat
  sentinel : Nat
  status : List StatusWrite
  events : List DLEvent
  is_running : Bool
  overlay_count : Nat
  descriptors : Nat → dl_overlay_t
  dl_dram_addr : Nat

/-- Source `PhysicalAddr(x)`: the N64 physical address, the low 29 bits of the
pointer (macro from n64sys.h, not among the sources). -/
def physAddr (a : Nat) : Nat := a % 0x20000000

/-- Store one 32-bit word at offset `i` of buffer `b`. -/
def writeWord (st : DLState) (b : Bool) (i v : Nat) : DLState :=
  { st with buffers := fun b2 j => if b2 = b ∧ j = i then v else st.buffers b2 j }

/-- Modelled from the spec: `dl_terminator(ptr)` (defined in the missing
header dl_internal.h) writes a terminator word at `ptr`, marking the logical
end of the stream for the consumer. -/
def dl_terminator (cfg : DLConfig) (st : DLState) (b : Bool) (i : Nat) : DLState :=
  writeWord st b i cfg.termWord

/-- Source `dl_init` (dl.c lines 58-73) evaluated at program start: the static
buffers are zero-initialized, dl_data is cleared, buffer 0 is zero-filled
and terminated, the cursor points at its start, the sentinel is
DL_MAX_COMMAND_SIZE words before its end, descriptor 0 is given the dummy
overlay state, and dl_overlay_count becomes 1. -/
def dl_init (cfg : DLConfig) : DLState :=
  { buffers := fun b j => if b = false ∧ j = 0 then cfg.termWord else 0
    buf_idx := false
    cur := 0
    sentinel := cfg.bufSize - cfg.maxCmd
    status := []
    events := []
    is_running := false
    overlay_count := 1
    descriptors := fun i =>
      if i = 0 then
        { code := 0, data := 0, data_buf := physAddr cfg.dummyStateAddr,
          code_size := 0, data_size := 8 }
      else
        { code := 0, data := 0, data_buf := 0, code_size := 0, data_size := 0 }
    dl_dram_addr := physAddr (cfg.physBase false) }

/-- Source `dl_next_buffer` (dl.c lines 170-182): flip `dl_buf_idx`, zero-fill and
terminate the other buffer, store the jump command word
`0x04000000 | PhysicalAddr(dl2)` at the cursor, advance the cursor, store a
terminator after the jump, write the doorbell, and switch cursor and
sentinel into the new buffer. -/
def dl_next_buffer (cfg : DLConfig) (st : DLState) : DLState :=
  let idx2 : Bool := !st.buf_idx
  let st1 := { st with buffers := fun b j =>
                if b = idx2 ∧ j < cfg.bufSize then 0 else st.buffers b j }
  let st2 := dl_terminator cfg st1 idx2 0
  let st3 := writeWord st2 st.buf_idx st.cur (0x04000000 ||| physAddr (cfg.physBase idx2))
  let st4 := { st3 with cur := st3.cur + 1 }
  let st5 := dl_terminator cfg st4 st4.buf_idx st4.cur
  let st6 := { st5 with status := st5.status ++ [StatusWrite.doorbell] }
  { st6 with buf_idx := idx2, cur := 0, sentinel := cfg.bufSize - cfg.maxCmd }

/-- Source `dl_write_end(dl)` (dl.c lines 158-168): write a terminator at the
committed pointer, raise the doorbell, commit the cursor, and if the cursor
has crossed the sentinel call `dl_next_buffer`. -/
def dl_write_end (cfg : DLConfig) (dl : Nat) (st : DLState) : DLState :=
  let st1 := dl_terminator cfg st st.buf_idx dl
  let st2 := { st1 with status := st1.status ++ [StatusWrite.doorbell] }
  let st3 := { st2 with cur := dl }
  if st3.sentinel < st3.cur then dl_next_buffer cfg st3 else st3

/-- Source `dl_start` (dl.c lines 121-156): if the consumer is already running do
nothing; otherwise wait for the RSP, load the ucode, push dl_data and the
dummy overlay header, clear the eight signal bits, start the RSP and record
that it is running. -/
def dl_start (st : DLState) : DLState :=
  if st.is_running then st
  else
    { st with
      events := st.events ++ [DLEvent.rspWait, DLEvent.rspLoadUcode,
        DLEvent.pushStateTable, DLEvent.pushDummyHeader, DLEvent.runAsync]
      status := st.status ++ [StatusWrite.clearAllSignals]
      is_running := true }

/-- Source `get_ovl_data_offset` (dl.c lines 50-56): the hard-coded constant 0x200. -/
def get_ovl_data_offset : Nat := 0x200

/-- Source `dl_overlay_get_state` (dl.c lines 81-85):
`ucode->data + (header->state_start & 0xFFF) - get_ovl_data_offset()`. -/
def dl_overlay_get_state (u : rsp_ucode_t) : Nat :=
  u.data + (u.state_start % 0x1000) - get_ovl_data_offset

/-- Source `dl_overlay_add` (dl.c lines 87-108).  The two `assertf` guards abort
with their message when violated; otherwise the overlay descriptor is
computed and stored at index `dl_overlay_count`, which is then incremented,
and the pre-increment value is returned.  The function performs no check of
`dl_is_running`. -/
def dl_overlay_add (cfg : DLConfig) (u : rsp_ucode_t) (st : DLState) :
    Except String (Nat × DLState) :=
  if st.overlay_count = 0 then
    Except.error "dl_overlay_add must be called after dl_init!"
  else if cfg.maxOverlayCount ≤ st.overlay_count then
    Except.error "Only up to DL_MAX_OVERLAY_COUNT overlays are supported!"
  else
    let desc : dl_overlay_t :=
      { code := physAddr (u.code + cfg.dlUcodeSize)
        data := physAddr u.data
        data_buf := physAddr (dl_overlay_get_state u)
        code_size := (u.code_end - u.code - cfg.dlUcodeSize - 1) % 0x10000
        data_size := (u.data_end - u.data - 1) % 0x10000 }
    Except.ok (st.overlay_count,
      { st with
        descriptors := fun i => if i = st.overlay_count then desc else st.descriptors i
        overlay_count := st.overlay_count + 1 })

/-- Modelled from the spec: `dl_write_begin` (declared in the missing header
dl_internal.h) returns a writable region at the current write cursor of the
active buffer and advances no cursor. -/
def dl_write_begin (st : DLState) : Nat := st.cur

/-- Source `dl_queue_u8` (dl.c lines 281-286): store the 8-bit command shifted left
by 24 into the word at the cursor and commit one word. -/
def dl_queue_u8 (cfg : DLConfig) (cmd : Nat) (st : DLState) : DLState :=
  let dl := dl_write_begin st
  let st1 := writeWord st st.buf_idx dl (cmd <<< 24)
  dl_write_end cfg (dl + 1) st1

/-- Source `dl_queue_u64` (dl.c lines 302-308): store `cmd >> 32` at the cursor,
then `cmd & 0xFFFFFFFF` at the next word, and commit two words. -/
def dl_queue_u64 (cfg : DLConfig) (cmd : Nat) (st : DLState) : DLState :=
  let dl := dl_write_begin st
  let st1 := writeWord st st.buf_idx dl (cmd >>> 32)
  let st2 := writeWord st1 st.buf_idx (dl + 1) (cmd &&& 0xFFFFFFFF)
  dl_write_end cfg (dl + 2) st2

/-- The invariant of the transport stated by the spec: a terminator word
sits at the write cursor of the active buffer (immediately after the last
committed command word), the cursor has not passed the sentinel, and the
sentinel lies DL_MAX_COMMAND_SIZE words before the end of the buffer. -/
def dl_invariant (cfg : DLConfig) (st : DLState) : Prop :=
  st.buffers st.buf_idx st.cur = cfg.termWord ∧
  st.cur ≤ st.sentinel ∧
  st.sentinel + cfg.maxCmd = cfg.bufSize

/-- A sample configuration used by the concrete instance theorems below. -/
def sampleConfig : DLConfig :=
  { bufSize := 8
    maxCmd := 2
    physBase := fun b => if b then 0x100 else 0x200
    termWord := 1
    dlUcodeSize := 0x1000
    maxOverlayCount := 8
    dummyStateAddr := 0x2000 }

/-- A sample ucode descriptor used by the concrete instance theorems below. -/
def sampleUcode : rsp_ucode_t :=
  { code := 0x4000, code_end := 0x6000, data := 0x7000, data_end := 0x7800,
    state_start := 0x300 }

/-! ## rdpq.h command identifiers (src/include/rdpq.h lines 49-112) -/

def RDPQ_CMD_NOOP : Nat := 0x00
def RDPQ_CMD_SET_LOOKUP_ADDRESS : Nat := 0x01
def RDPQ_CMD_PUSH_RENDER_MODE : Nat := 0x02
def RDPQ_CMD_POP_RENDER_MODE : Nat := 0x03
def RDPQ_CMD_POP_RENDER_MODE_FIX : Nat := 0x04
def RDPQ_CMD_SET_COMBINE_MODE_2PASS : Nat := 0x05
def RDPQ_CMD_SET_COMBINE_MODE_2PASS_FIX : Nat := 0x06
def RDPQ_CMD_TRI : Nat := 0x08
def RDPQ_CMD_TRI_ZBUF : Nat := 0x09
def RDPQ_CMD_TRI_TEX : Nat := 0x0A
def RDPQ_CMD_TRI_TEX_ZBUF : Nat := 0x0B
def RDPQ_CMD_TRI_SHADE : Nat := 0x0C
def RDPQ_CMD_TRI_SHADE_ZBUF : Nat := 0x0D
def RDPQ_CMD_TRI_SHADE_TEX : Nat := 0x0E
def RDPQ_CMD_TRI_SHADE_TEX_ZBUF : Nat := 0x0F
def RDPQ_CMD_TEXTURE_RECTANGLE_EX : Nat := 0x10
def RDPQ_CMD_TEXTURE_RECTANGLE_EX_FIX : Nat := 0x11
def RDPQ_CMD_SET_SCISSOR_EX : Nat := 0x12
def RDPQ_CMD_SET_SCISSOR_EX_FIX : Nat := 0x13
def RDPQ_CMD_MODIFY_OTHER_MODES : Nat := 0x14
def RDPQ_CMD_MODIFY_OTHER_MODES_FIX : Nat := 0x15
def RDPQ_CMD_SET_FILL_COLOR_32 : Nat := 0x16
def RDPQ_CMD_SET_FILL_COLOR_32_FIX : Nat := 0x17
def RDPQ_CMD_SET_BLENDING_MODE : Nat := 0x18
def RDPQ_CMD_SET_BLENDING_MODE_FIX : Nat := 0x19
def RDPQ_CMD_SET_COMBINE_MODE_1PASS : Nat := 0x1B
def RDPQ_CMD_SET_COMBINE_MODE_1PASS_FIX : Nat := 0x1C
def RDPQ_CMD_SET_TEXTURE_IMAGE_FIX : Nat := 0x1D
def RDPQ_CMD_SET_Z_IMAGE_FIX : Nat := 0x1E
def RDPQ_CMD_SET_COLOR_IMAGE_FIX : Nat := 0x1F
def RDPQ_CMD_SET_OTHER_MODES_FIX : Nat := 0x20
def RDPQ_CMD_SYNC_FULL_FIX : Nat := 0x21
def RDPQ_CMD_TEXTURE_RECTANGLE : Nat := 0x24
def RDPQ_CMD_TEXTURE_RECTANGLE_FLIP : Nat := 0x25
def RDPQ_CMD_SYNC_LOAD : Nat := 0x26
def RDPQ_CMD_SYNC_PIPE : Nat := 0x27
def RDPQ_CMD_SYNC_TILE : Nat := 0x28
def RDPQ_CMD_SYNC_FULL : Nat := 0x29
def RDPQ_CMD_SET_KEY_GB : Nat := 0x2A
def RDPQ_CMD_SET_KEY_R : Nat := 0x2B
def RDPQ_CMD_SET_CONVERT : Nat := 0x2C
def RDPQ_CMD_SET_SCISSOR : Nat := 0x2D
def RDPQ_CMD_SET_PRIM_DEPTH : Nat := 0x2E
def RDPQ_CMD_SET_OTHER_MODES : Nat := 0x2F
def RDPQ_CMD_LOAD_TLUT : Nat := 0x30
def RDPQ_CMD_SET_TILE_SIZE : Nat := 0x32
def RDPQ_CMD_LOAD_BLOCK : Nat := 0x33
def RDPQ_CMD_LOAD_TILE : Nat := 0x34
def RDPQ_CMD_SET_TILE : Nat := 0x35
def RDPQ_CMD_FILL_RECTANGLE : Nat := 0x36
def RDPQ_CMD_SET_FILL_COLOR : Nat := 0x37
def RDPQ_CMD_SET_FOG_COLOR : Nat := 0x38
def RDPQ_CMD_SET_BLEND_COLOR : Nat := 0x39
def RDPQ_CMD_SET_PRIM_COLOR : Nat := 0x3A
def RDPQ_CMD_SET_ENV_COLOR : Nat := 0x3B
def RDPQ_CMD_SET_COMBINE_MODE_RAW : Nat := 0x3C
def RDPQ_CMD_SET_TEXTURE_IMAGE : Nat := 0x3D
def RDPQ_CMD_SET_Z_IMAGE : Nat := 0x3E
def RDPQ_CMD_SET_COLOR_IMAGE : Nat := 0x3F

/-- Source `AUTOSYNC_TILE(n) = 1 << (0+n)` (rdpq.h line 118). -/
def AUTOSYNC_TILE (n : Nat) : Nat := 1 <<< n

/-- Source `AUTOSYNC_TMEM(n) = 1 << (8+n)` (rdpq.h line 120). -/
def AUTOSYNC_TMEM (n : Nat) : Nat := 1 <<< (8 + n)

/-- Source `AUTOSYNC_PIPE = 1 << 16` (rdpq.h line 122). -/
def AUTOSYNC_PIPE : Nat := 1 <<< 16

/-! ## Hazard tracker (autosync)

The implementation of the autosync tracker lives in rdpq.c, which is not
among the sources; rdpq.h only declares the barrier bit masks above and the
helpers `__rdpq_write8_syncchange` (barrier-requiring use) and
`__rdpq_write8_syncuse` (marking use) that receive them.  It is therefore
modelled from the spec here. -/

/-- Modelled from the spec: a high-level operation either marks a resource
bit as pending (a use that in-flight work depends on, e.g. a draw reading a
tile) or is a barrier-requiring use of the bit (e.g. reconfiguring the
tile).  Bits 0-7 are the tile-descriptor bits, bits 8-15 the
texture-memory-bank bits and bit 16 the pipeline bit, matching
AUTOSYNC_TILE, AUTOSYNC_TMEM and AUTOSYNC_PIPE. -/
inductive AutosyncOp where
  | mark (b : Nat)
  | use (b : Nat)
  deriving DecidableEq, Repr

/-- A command of the emitted stream, tagged by the operation that produced
it: the real command of a marking operation, the real command of a
barrier-requiring operation, or an injected barrier command for a bit. -/
inductive AutosyncCmd where
  | markc (b : Nat)
  | usec (b : Nat)
  | barrier (b : Nat)
  deriving DecidableEq, Repr

/-- Modelled from the spec: the autosync state machine.  `pending` is the
in-flight resource bitmask.  A marking operation emits its command and sets
its bit; a barrier-requiring operation on a pending bit synchronously emits
the matching barrier command before the real command and clears the bit,
and on a clear bit emits only the real command. -/
def autosyncEmit : (Nat → Bool) → List AutosyncOp → List AutosyncCmd
  | _, [] => []
  | pending, AutosyncOp.mark b :: rest =>
      AutosyncCmd.markc b ::
        autosyncEmit (fun x => if x = b then true else pending x) rest
  | pending, AutosyncOp.use b :: rest =>
      if pending b then
        AutosyncCmd.barrier b :: AutosyncCmd.usec b ::
          autosyncEmit (fun x => if x = b then false else pending x) rest
      else
        AutosyncCmd.usec b :: autosyncEmit pending rest

/-- The initial hazard mask: no resource is pending. -/
def autosyncInit : Nat → Bool := fun _ => false

/-! ## GL state (src/src/GL/gl.c) -/

/-- GLenum values used by gl.c (from the standard GL/gl.h header, which is
not among the sources; these are the standard OpenGL enumerant values). -/
def GL_NO_ERROR : Nat := 0
def GL_INVALID_ENUM : Nat := 0x0500
def GL_STACK_OVERFLOW : Nat := 0x0503
def GL_STACK_UNDERFLOW : Nat := 0x0504
def GL_SCISSOR_TEST : Nat := 0x0C11
def GL_CULL_FACE : Nat := 0x0B44
def GL_DEPTH_TEST : Nat := 0x0B71
def GL_TEXTURE_2D : Nat := 0x0DE1
def GL_BLEND : Nat := 0x0BE2
def GL_COLOR_LOGIC_OP : Nat := 0x0BF2
def GL_INDEX_LOGIC_OP : Nat := 0x0BF1
def GL_LINE_STIPPLE : Nat := 0x0B24
def GL_POLYGON_STIPPLE : Nat := 0x0B42

/-- Source `gl_matrix_stack_t` (gl.c lines 59-62).  The matrix entries are opaque
here (type parameter `M`, standing for gl_matrix_t); `storage` models the
backing array, indexed by Int like the int32_t depth fields. -/
structure gl_matrix_stack_t (M : Type) where
  storage : Int → M
  size : Int
  cur_depth : Int

/-- Selector for `state.current_matrix_stack`, which points at either
`state.modelview_stack` or `state.projection_stack`. -/
inductive MatrixStackSel where
  | modelview
  | projection
  deriving DecidableEq, Repr

/-- The fields of the gl.c `state` global that the functions embedded here
touch.  `current_matrix` models the pointer `&stack->storage[depth]` as the
pair of the stack it points into and the depth. -/
structure GLState (M : Type) where
  modelview_stack : gl_matrix_stack_t M
  projection_stack : gl_matrix_stack_t M
  current_matrix_stack : MatrixStackSel
  current_matrix : MatrixStackSel × Int
  current_error : Nat
  is_scissor_dirty : Bool
  scissor_test : Bool
  cull_face : Bool
  depth_test : Bool
  texture_2d : Bool
  blend : Bool

/-- Fetch the stack a selector denotes. -/
def getStack {M : Type} (st : GLState M) : MatrixStackSel → gl_matrix_stack_t M
  | MatrixStackSel.modelview => st.modelview_stack
  | MatrixStackSel.projection => st.projection_stack

/-- Store back the stack a selector denotes. -/
def setStack {M : Type} (st : GLState M) :
    MatrixStackSel → gl_matrix_stack_t M → GLState M
  | MatrixStackSel.modelview, s => { st with modelview_stack := s }
  | MatrixStackSel.projection, s => { st with projection_stack := s }

/-- Source `gl_set_error` (gl.c lines 255-259): record the error code.  (The
`assert(error)` there holds at every call site, which pass nonzero
constants.) -/
def gl_set_error {M : Type} (e : Nat) (st : GLState M) : GLState M :=
  { st with current_error := e }

/-- Source `gl_update_current_matrix` (gl.c lines 178-181): point `current_matrix`
at `&current_matrix_stack->storage[cur_depth]`. -/
def gl_update_current_matrix {M : Type} (st : GLState M) : GLState M :=
  { st with current_matrix :=
      (st.current_matrix_stack, (getStack st st.current_matrix_stack).cur_depth) }

/-- The matrix the `current_matrix` pointer dereferences to. -/
def derefCurrentMatrix {M : Type} (st : GLState M) : M :=
  (getStack st st.current_matrix.1).storage st.current_matrix.2

/-- Source `glPushMatrix` (gl.c lines 793-807): on `cur_depth + 1 >= size` record
GL_STACK_OVERFLOW and return; otherwise increment the depth, copy the
previous top into the new slot, and refresh the current-matrix pointer. -/
def glPushMatrix {M : Type} (st : GLState M) : GLState M :=
  let stack := getStack st st.current_matrix_stack
  let new_depth := stack.cur_depth + 1
  if stack.size ≤ new_depth then gl_set_error GL_STACK_OVERFLOW st
  else
    let stack2 :=
      { stack with
        cur_depth := new_depth
        storage := fun i =>
          if i = new_depth then stack.storage (new_depth - 1) else stack.storage i }
    gl_update_current_matrix (setStack st st.current_matrix_stack stack2)

/-- Source `glPopMatrix` (gl.c lines 809-822): on `cur_depth - 1 < 0` record
GL_STACK_UNDERFLOW and return; otherwise decrement the depth and refresh
the current-matrix pointer. -/
def glPopMatrix {M : Type} (st : GLState M) : GLState M :=
  let stack := getStack st st.current_matrix_stack
  let new_depth := stack.cur_depth - 1
  if new_depth < 0 then gl_set_error GL_STACK_UNDERFLOW st
  else
    gl_update_current_matrix
      (setStack st st.current_matrix_stack { stack with cur_depth := new_depth })

/-- Source `gl_set_flag` (gl.c lines 268-297), with the switch fallthroughs of the
C source reproduced: the GL_BLEND case stores the flag and then falls into
the GL_COLOR_LOGIC_OP/GL_INDEX_LOGIC_OP `assertf(!value, ...)`, and the
GL_LINE_STIPPLE/GL_POLYGON_STIPPLE `assertf` falls into the default case.
An assertion failure aborts; the error value carries the message and the
state at the abort. -/
def gl_set_flag {M : Type} (target : Nat) (value : Bool) (st : GLState M) :
    Except (String × GLState M) (GLState M) :=
  if target = GL_SCISSOR_TEST then
    Except.ok { st with is_scissor_dirty := value ≠ st.scissor_test,
                        scissor_test := value }
  else if target = GL_CULL_FACE then
    Except.ok { st with cull_face := value }
  else if target = GL_DEPTH_TEST then
    Except.ok { st with depth_test := value }
  else if target = GL_TEXTURE_2D then
    Except.ok { st with texture_2d := value }
  else if target = GL_BLEND ∨ target = GL_COLOR_LOGIC_OP ∨ target = GL_INDEX_LOGIC_OP then
    let st1 := if target = GL_BLEND then { st with blend := value } else st
    if value then Except.error ("Logical pixel operation is not supported!", st1)
    else Except.ok st1
  else if target = GL_LINE_STIPPLE ∨ target = GL_POLYGON_STIPPLE then
    if value then Except.error ("Stipple is not supported!", st)
    else Except.ok (gl_set_error GL_INVALID_ENUM st)
  else
    Except.ok (gl_set_error GL_INVALID_ENUM st)

/-- Source `glEnable` (gl.c lines 299-302). -/
def glEnable {M : Type} (target : Nat) (st : GLState M) :
    Except (String × GLState M) (GLState M) :=
  gl_set_flag target true st

/-- Source `glDisable` (gl.c lines 304-307). -/
def glDisable {M : Type} (target : Nat) (st : GLState M) :
    Except (String × GLState M) (GLState M) :=
  gl_set_flag target false st

/-- A sample GL state over Nat-coded matrices, used by the concrete
instance theorems below: both stacks have their base matrix as current, the
modelview stack is given size 1 so that it is simultaneously empty and at
capacity. -/
def sampleGLState : GLState Nat :=
  { modelview_stack := { storage := fun i => if i = 0 then 7 else 0,
                         size := 1, cur_depth := 0 }
    projection_stack := { storage := fun i => if i = 0 then 9 else 0,
                          size := 2, cur_depth := 0 }
    current_matrix_stack := MatrixStackSel.modelview
    current_matrix := (MatrixStackSel.modelview, 0)
    current_error := GL_NO_ERROR
    is_scissor_dirty := false
    scissor_test := false
    cull_face := false
    depth_test := false
    texture_2d := false
    blend := false }

/-! ## Helper lemmas -/

/-- Oring a multiple of `2 ^ n` with a value below `2 ^ n` is addition. -/
theorem mul_two_pow_lor_eq_add : ∀ (n a p : Nat), p < 2 ^ n →
    a * 2 ^ n ||| p = a * 2 ^ n + p := by
  intro n
  induction n with
  | zero =>
    intro a p hp
    have hp0 : p = 0 := by simpa using Nat.lt_one_iff.mp (by simpa using hp)
    subst hp0
    simp
  | succ n ih =>
    intro a p hp
    have hx2 : a * 2 ^ (n + 1) = a * 2 ^ n * 2 := by ring
    have hdiv : a * 2 ^ (n + 1) / 2 = a * 2 ^ n := by
      rw [hx2]
      exact Nat.mul_div_cancel _ (by norm_num)
    have hmod0 : a * 2 ^ (n + 1) % 2 = 0 := by
      rw [hx2]
      exact Nat.mul_mod_left _ 2
    have hp2 : p / 2 < 2 ^ n := by
      rw [pow_succ] at hp
      omega
    have key := ih a (p / 2) hp2
    have hsum : a * 2 ^ (n + 1) ||| p =
        2 * (a * 2 ^ (n + 1) / 2 ||| p / 2) + (a * 2 ^ (n + 1) ||| p) % 2 := by
      rw [← Nat.or_div_two]
      omega
    have hiff := Nat.or_mod_two_eq_one (a := a * 2 ^ (n + 1)) (b := p)
    have hmod : (a * 2 ^ (n + 1) ||| p) % 2 = p % 2 := by
      rcases Nat.mod_two_eq_zero_or_one p with h | h
      · have hne : ¬ (a * 2 ^ (n + 1) ||| p) % 2 = 1 := by
          intro hc
          rcases hiff.mp hc with hc1 | hc1 <;> omega
        omega
      · have := hiff.mpr (Or.inr h)
        omega
    rw [hsum, hdiv, key, hmod, hx2]
    omega

/-- The inactive buffer selector differs from the active one. -/
theorem not_buf_ne (b : Bool) : (!b) ≠ b := by cases b <;> simp

/-- Words of the active buffer strictly below the committed pointer are not
touched by `dl_write_end`, with or without a buffer switch. -/
theorem dl_write_end_preserves_lower (cfg : DLConfig) (dl : Nat) (st : DLState)
    (j : Nat) (hj : j < dl) :
    (dl_write_end cfg dl st).buffers st.buf_idx j = st.buffers st.buf_idx j := by
  have hb : st.buf_idx ≠ !st.buf_idx := (not_buf_ne st.buf_idx).symm
  have hx1 : j ≠ dl + 1 := by omega
  have hx2 : j ≠ dl := by omega
  by_cases h : st.sentinel < dl
  · simp [dl_write_end, dl_next_buffer, dl_terminator, writeWord, h, hx1, hx2, hb]
  · simp [dl_write_end, dl_terminator, writeWord, h, hx2]

/-! ## C4 -/

/-- C4 counterexample: at a concrete commit that crosses the sentinel
(sample configuration: buffer of 8 words, sentinel at 6, committed pointer
7), the doorbell status write is issued twice, not exactly once: the status
log grows from zero doorbells to two. -/
theorem dl_write_end_doorbell_cex :
    (dl_init sampleConfig).status.count StatusWrite.doorbell = 0 ∧
    (dl_write_end sampleConfig 7 (dl_init sampleConfig)).status.count
      StatusWrite.doorbell = 2 ∧
    ¬ (dl_write_end sampleConfig 7 (dl_init sampleConfig)).status.count
        StatusWrite.doorbell =
      (dl_init sampleConfig).status.count StatusWrite.doorbell + 1 := by
  refine ⟨rfl, rfl, by decide⟩

/-- C4 amended: every call to `dl_write_end` raises the consumer doorbell
(the SP status write setting signal 7 and clearing halt/broke) exactly once
when the committed cursor has not crossed the sentinel, and exactly twice
when it has (once in `dl_write_end` itself and once more inside
`dl_next_buffer`). -/
theorem dl_write_end_doorbell_count (cfg : DLConfig) (dl : Nat) (st : DLState) :
    (dl_write_end cfg dl st).status.count StatusWrite.doorbell =
      st.status.count StatusWrite.doorbell + (if st.sentinel < dl then 2 else 1) := by
  by_cases h : st.sentinel < dl
  · simp [dl_write_end, dl_next_buffer, dl_terminator, writeWord, h,
      List.count_append]
    decide
  · simp [dl_write_end, dl_terminator, writeWord, h, List.count_append]
    decide

/-! ## C5 -/

/-- C5 counterexample: the fixup id of SET_TEXTURE_IMAGE is 0x1D while the
passthrough id is 0x3D, so the fixed id is not the dynamic id plus 1. -/
theorem rdpq_fixup_id_not_succ_cex :
    ¬ RDPQ_CMD_SET_TEXTURE_IMAGE_FIX = RDPQ_CMD_SET_TEXTURE_IMAGE + 1 := by
  decide

/-- C5 amended: for the paired commands whose passthrough id lies below
0x20 (POP_RENDER_MODE, SET_COMBINE_MODE_2PASS, TEXTURE_RECTANGLE_EX,
SET_SCISSOR_EX, MODIFY_OTHER_MODES, SET_FILL_COLOR_32, SET_BLENDING_MODE,
SET_COMBINE_MODE_1PASS) the fixed id equals the dynamic id plus 1, but for
SET_TEXTURE_IMAGE, SET_Z_IMAGE and SET_COLOR_IMAGE the fixed id equals the
dynamic id minus 0x20; the dispatch helpers receive both ids explicitly at
every call site rather than computing one from the other. -/
theorem rdpq_fixup_id_pairs :
    RDPQ_CMD_POP_RENDER_MODE_FIX = RDPQ_CMD_POP_RENDER_MODE + 1 ∧
    RDPQ_CMD_SET_COMBINE_MODE_2PASS_FIX = RDPQ_CMD_SET_COMBINE_MODE_2PASS + 1 ∧
    RDPQ_CMD_TEXTURE_RECTANGLE_EX_FIX = RDPQ_CMD_TEXTURE_RECTANGLE_EX + 1 ∧
    RDPQ_CMD_SET_SCISSOR_EX_FIX = RDPQ_CMD_SET_SCISSOR_EX + 1 ∧
    RDPQ_CMD_MODIFY_OTHER_MODES_FIX = RDPQ_CMD_MODIFY_OTHER_MODES + 1 ∧
    RDPQ_CMD_SET_FILL_COLOR_32_FIX = RDPQ_CMD_SET_FILL_COLOR_32 + 1 ∧
    RDPQ_CMD_SET_BLENDING_MODE_FIX = RDPQ_CMD_SET_BLENDING_MODE + 1 ∧
    RDPQ_CMD_SET_COMBINE_MODE_1PASS_FIX = RDPQ_CMD_SET_COMBINE_MODE_1PASS + 1 ∧
    RDPQ_CMD_SET_TEXTURE_IMAGE_FIX + 0x20 = RDPQ_CMD_SET_TEXTURE_IMAGE ∧
    RDPQ_CMD_SET_Z_IMAGE_FIX + 0x20 = RDPQ_CMD_SET_Z_IMAGE ∧
    RDPQ_CMD_SET_COLOR_IMAGE_FIX + 0x20 = RDPQ_CMD_SET_COLOR_IMAGE := by
  decide

/-! ## C6 -/

/-- C6: `dl_start` is idempotent.  A second call finds `dl_is_running` set
and returns immediately, so it pushes nothing to consumer memory, clears no
signal bits and triggers no second run: the state after two calls equals
the state after one. -/
theorem dl_start_idempotent (st : DLState) :
    dl_start (dl_start st) = dl_start st := by
  by_cases h : st.is_running <;> simp [dl_start, h]

/-! ## C7 -/

/-- C7 (the code lacks the check the claim describes): starting the
consumer and then calling `dl_overlay_add` does not abort; the overlay is
registered and index 1 is returned, and the overlay count grows to 2, even
though `dl_is_running` is true at the call. -/
theorem dl_overlay_add_after_start_succeeds :
    (dl_start (dl_init sampleConfig)).is_running = true ∧
    ((dl_overlay_add sampleConfig sampleUcode
        (dl_start (dl_init sampleConfig))).toOption.map Prod.fst = some 1) ∧
    ((dl_overlay_add sampleConfig sampleUcode
        (dl_start (dl_init sampleConfig))).toOption.map
          (fun r => r.2.overlay_count) = some 2) := by
  refine ⟨rfl, rfl, rfl⟩

/-! ## C8 -/

/-- C8: `glPopMatrix` on an empty matrix stack records GL_STACK_UNDERFLOW
and changes nothing else (the current configuration, the storage and the
depth are left untouched), and `glPushMatrix` on a stack at capacity
records GL_STACK_OVERFLOW and changes nothing else; both error codes are
distinct from GL_NO_ERROR, so neither condition is silently clamped. -/
theorem gl_matrix_stack_guard {M : Type} (st : GLState M) :
    ((getStack st st.current_matrix_stack).cur_depth - 1 < 0 →
      glPopMatrix st = { st with current_error := GL_STACK_UNDERFLOW }) ∧
    ((getStack st st.current_matrix_stack).size ≤
        (getStack st st.current_matrix_stack).cur_depth + 1 →
      glPushMatrix st = { st with current_error := GL_STACK_OVERFLOW }) ∧
    GL_STACK_UNDERFLOW ≠ GL_NO_ERROR ∧ GL_STACK_OVERFLOW ≠ GL_NO_ERROR := by
  refine ⟨?_, ?_, by decide, by decide⟩
  · intro h
    simp [glPopMatrix, gl_set_error, h]
  · intro h
    simp [glPushMatrix, gl_set_error, h]

/-- C8 instance: on the sample GL state, whose modelview stack has size 1
and depth 0 (simultaneously empty and at capacity), popping records
GL_STACK_UNDERFLOW and pushing records GL_STACK_OVERFLOW, each leaving the
rest of the state unchanged. -/
theorem gl_matrix_stack_guard_witness :
    glPopMatrix sampleGLState =
      { sampleGLState with current_error := GL_STACK_UNDERFLOW } ∧
    glPushMatrix sampleGLState =
      { sampleGLState with current_error := GL_STACK_OVERFLOW } :=
  ⟨(gl_matrix_stack_guard sampleGLState).1 (by decide),
   (gl_matrix_stack_guard sampleGLState).2.1 (by decide)⟩

/-! ## C10 -/

/-- C10: the GL_BLEND case of gl_set_flag falls through into the logic-op
cases.  glDisable(GL_BLEND) clears the blend flag and returns normally, but
glEnable(GL_BLEND) first sets the blend flag and then fails the assertion
with the message about logical pixel operations, so the abort is reachable
through the public glEnable entry point. -/
theorem gl_set_flag_blend_fallthrough {M : Type} (st : GLState M) :
    glEnable GL_BLEND st =
      Except.error ("Logical pixel operation is not supported!",
        { st with blend := true }) ∧
    glDisable GL_BLEND st = Except.ok { st with blend := false } := by
  constructor <;> rfl

/-! ## C1 -/

/-- C1: behavior of `dl_write_end`.  If the committed cursor has crossed
the sentinel, the jump command word (0x04 in the top byte, the physical
address of the other buffer in the low 24 bits) is stored right after the
committed commands, the other buffer is zero-filled and freshly terminated,
the active buffer switches to it, and the sentinel again leaves
DL_MAX_COMMAND_SIZE words of headroom.  If the cursor has not crossed the
sentinel, the active buffer beyond the committed words and the new
terminator is unchanged, the other buffer is untouched, and no switch
occurs. -/
theorem dl_write_end_switch_behavior (cfg : DLConfig) (dl : Nat) (st : DLState)
    (hmax : cfg.maxCmd ≤ cfg.bufSize)
    (hphys : physAddr (cfg.physBase (!st.buf_idx)) < 0x1000000) :
    (st.sentinel < dl →
      (dl_write_end cfg dl st).buffers st.buf_idx dl =
        0x04000000 ||| physAddr (cfg.physBase (!st.buf_idx)) ∧
      (dl_write_end cfg dl st).buffers st.buf_idx dl / 0x1000000 = 0x04 ∧
      (dl_write_end cfg dl st).buffers st.buf_idx dl % 0x1000000 =
        physAddr (cfg.physBase (!st.buf_idx)) ∧
      (dl_write_end cfg dl st).buffers (!st.buf_idx) 0 = cfg.termWord ∧
      (∀ j, 0 < j → j < cfg.bufSize →
        (dl_write_end cfg dl st).buffers (!st.buf_idx) j = 0) ∧
      (dl_write_end cfg dl st).buf_idx = !st.buf_idx ∧
      (dl_write_end cfg dl st).cur = 0 ∧
      (dl_write_end cfg dl st).sentinel + cfg.maxCmd = cfg.bufSize) ∧
    (¬ st.sentinel < dl →
      (dl_write_end cfg dl st).buffers st.buf_idx dl = cfg.termWord ∧
      (∀ j, dl < j →
        (dl_write_end cfg dl st).buffers st.buf_idx j = st.buffers st.buf_idx j) ∧
      (∀ j, (dl_write_end cfg dl st).buffers (!st.buf_idx) j =
        st.buffers (!st.buf_idx) j) ∧
      (dl_write_end cfg dl st).buf_idx = st.buf_idx ∧
      (dl_write_end cfg dl st).cur = dl ∧
      (dl_write_end cfg dl st).sentinel = st.sentinel) := by
  have hb : st.buf_idx ≠ !st.buf_idx := (not_buf_ne st.buf_idx).symm
  have hjump : (0x04000000 : Nat) ||| physAddr (cfg.physBase (!st.buf_idx)) =
      0x04000000 + physAddr (cfg.physBase (!st.buf_idx)) := by
    have h24 : physAddr (cfg.physBase (!st.buf_idx)) < 2 ^ 24 := by
      simpa using hphys
    have := mul_two_pow_lor_eq_add 24 4 (physAddr (cfg.physBase (!st.buf_idx))) h24
    simpa using this
  constructor
  · intro h
    refine ⟨?_, ?_, ?_, ?_, ?_, ?_, ?_, ?_⟩
    · simp [dl_write_end, dl_next_buffer, dl_terminator, writeWord, h, hb]
    · rw [show (dl_write_end cfg dl st).buffers st.buf_idx dl =
          0x04000000 ||| physAddr (cfg.physBase (!st.buf_idx)) by
        simp [dl_write_end, dl_next_buffer, dl_terminator, writeWord, h, hb]]
      rw [hjump]
      omega
    · rw [show (dl_write_end cfg dl st).buffers st.buf_idx dl =
          0x04000000 ||| physAddr (cfg.physBase (!st.buf_idx)) by
        simp [dl_write_end, dl_next_buffer, dl_terminator, writeWord, h, hb]]
      rw [hjump]
      omega
    · simp [dl_write_end, dl_next_buffer, dl_terminator, writeWord, h, hb]
    · intro j hj0 hjsize
      have hj0n : j ≠ 0 := by omega
      simp [dl_write_end, dl_next_buffer, dl_terminator, writeWord, h, hb,
        hj0n, hjsize]
    · simp [dl_write_end, dl_next_buffer, dl_terminator, writeWord, h]
    · simp [dl_write_end, dl_next_buffer, dl_terminator, writeWord, h]
    · simp [dl_write_end, dl_next_buffer, dl_terminator, writeWord, h]
      omega
  · intro h
    refine ⟨?_, ?_, ?_, ?_, ?_, ?_⟩
    · simp [dl_write_end, dl_terminator, writeWord, h]
    · intro j hj
      have hjn : j ≠ dl := by omega
      simp [dl_write_end, dl_terminator, writeWord, h, hjn]
    · intro j
      simp [dl_write_end, dl_terminator, writeWord, h, hb]
    · simp [dl_write_end, dl_terminator, writeWord, h]
    · simp [dl_write_end, dl_terminator, writeWord, h]
    · simp [dl_write_end, dl_terminator, writeWord, h]

/-- C1 instance: on the sample configuration, committing pointer 7 from the
freshly initialized state (sentinel 6) stores a jump word whose top byte is
0x04 and whose low bits are the physical address of buffer 1, switches the
active buffer, resets the cursor, and zero-fills the other buffer. -/
theorem dl_write_end_switch_behavior_witness :
    (dl_write_end sampleConfig 7 (dl_init sampleConfig)).buffers
        (dl_init sampleConfig).buf_idx 7 / 0x1000000 = 0x04 ∧
    (dl_write_end sampleConfig 7 (dl_init sampleConfig)).buffers
        (dl_init sampleConfig).buf_idx 7 % 0x1000000 =
      physAddr (sampleConfig.physBase (!(dl_init sampleConfig).buf_idx)) ∧
    (dl_write_end sampleConfig 7 (dl_init sampleConfig)).buf_idx =
      !(dl_init sampleConfig).buf_idx ∧
    (dl_write_end sampleConfig 7 (dl_init sampleConfig)).buffers
        (!(dl_init sampleConfig).buf_idx) 3 = 0 :=
  have h := (dl_write_end_switch_behavior sampleConfig 7 (dl_init sampleConfig)
    (by decide) (by decide)).1 (by decide)
  ⟨h.2.1, h.2.2.1, h.2.2.2.2.2.1, h.2.2.2.2.1 3 (by decide) (by decide)⟩

/-! ## C2 -/

/-- C2: after `dl_init`, and after any `dl_write_end` on a state whose
sentinel leaves DL_MAX_COMMAND_SIZE words of headroom, the transport
invariant holds: a terminator word sits immediately after the last
committed command word of the active buffer, and the write cursor is at or
before the sentinel, which lies DL_MAX_COMMAND_SIZE words before the end of
the active buffer, so the producer never begins a command past the sentinel
without a buffer switch. -/
theorem dl_invariant_init_and_preserved (cfg : DLConfig)
    (hmax : cfg.maxCmd ≤ cfg.bufSize) :
    dl_invariant cfg (dl_init cfg) ∧
    ∀ (st : DLState) (dl : Nat), st.sentinel + cfg.maxCmd = cfg.bufSize →
      dl_invariant cfg (dl_write_end cfg dl st) := by
  constructor
  · refine ⟨?_, ?_, ?_⟩
    · simp [dl_init]
    · simp [dl_init]
    · simp [dl_init]
      omega
  · intro st dl hsent
    have hb : st.buf_idx ≠ !st.buf_idx := (not_buf_ne st.buf_idx).symm
    have hbr : (!st.buf_idx) ≠ st.buf_idx := not_buf_ne st.buf_idx
    by_cases h : st.sentinel < dl
    · refine ⟨?_, ?_, ?_⟩
      · simp [dl_write_end, dl_next_buffer, dl_terminator, writeWord, h, hbr]
      · simp [dl_write_end, dl_next_buffer, dl_terminator, writeWord, h]
      · simp [dl_write_end, dl_next_buffer, dl_terminator, writeWord, h]
        omega
    · refine ⟨?_, ?_, ?_⟩
      · simp [dl_write_end, dl_terminator, writeWord, h]
      · simp [dl_write_end, dl_terminator, writeWord, h]
        omega
      · simp [dl_write_end, dl_terminator, writeWord, h]
        omega

/-- C2 instance: the invariant holds concretely after `dl_init` on the
sample configuration, and after committing pointer 3 there. -/
theorem dl_invariant_init_and_preserved_witness :
    dl_invariant sampleConfig (dl_init sampleConfig) ∧
    dl_invariant sampleConfig (dl_write_end sampleConfig 3 (dl_init sampleConfig)) :=
  ⟨(dl_invariant_init_and_preserved sampleConfig (by decide)).1,
   (dl_invariant_init_and_preserved sampleConfig (by decide)).2
     (dl_init sampleConfig) 3 (by decide)⟩

/-! ## C9 -/

/-- C9: `dl_queue_u8` stores the 8-bit command id shifted into the top byte
of the first command word (dividing the stored word by 2^24 recovers the
id), and `dl_queue_u64` stores the most significant word `cmd >> 32` at the
cursor before the least significant word `cmd & 0xFFFFFFFF` at the
following offset. -/
theorem dl_queue_word_layout (cfg : DLConfig) (st : DLState) (c8 c64 : Nat)
    (h8 : c8 < 0x100) (h64 : c64 < 0x10000000000000000) :
    (dl_queue_u8 cfg c8 st).buffers st.buf_idx st.cur = c8 <<< 24 ∧
    (dl_queue_u8 cfg c8 st).buffers st.buf_idx st.cur / 0x1000000 = c8 ∧
    (dl_queue_u64 cfg c64 st).buffers st.buf_idx st.cur = c64 >>> 32 ∧
    (dl_queue_u64 cfg c64 st).buffers st.buf_idx (st.cur + 1) = c64 &&& 0xFFFFFFFF := by
  have hshift : c8 <<< 24 = c8 * 2 ^ 24 := Nat.shiftLeft_eq c8 24
  have h1 : (dl_queue_u8 cfg c8 st).buffers st.buf_idx st.cur = c8 <<< 24 := by
    have hpres := dl_write_end_preserves_lower cfg (st.cur + 1)
      (writeWord st st.buf_idx (dl_write_begin st) (c8 <<< 24)) st.cur (by omega)
    simp only [dl_queue_u8, dl_write_begin] at *
    rw [show (writeWord st st.buf_idx st.cur (c8 <<< 24)).buf_idx = st.buf_idx
      from rfl] at hpres
    rw [hpres]
    simp [writeWord]
  have h64a : (dl_queue_u64 cfg c64 st).buffers st.buf_idx st.cur = c64 >>> 32 := by
    have hpres := dl_write_end_preserves_lower cfg (st.cur + 2)
      (writeWord (writeWord st st.buf_idx (dl_write_begin st) (c64 >>> 32))
        st.buf_idx (dl_write_begin st + 1) (c64 &&& 0xFFFFFFFF)) st.cur (by omega)
    simp only [dl_queue_u64, dl_write_begin] at *
    rw [show (writeWord (writeWord st st.buf_idx st.cur (c64 >>> 32))
        st.buf_idx (st.cur + 1) (c64 &&& 0xFFFFFFFF)).buf_idx = st.buf_idx
      from rfl] at hpres
    rw [hpres]
    simp [writeWord]
  have h64b : (dl_queue_u64 cfg c64 st).buffers st.buf_idx (st.cur + 1) =
      c64 &&& 0xFFFFFFFF := by
    have hpres := dl_write_end_preserves_lower cfg (st.cur + 2)
      (writeWord (writeWord st st.buf_idx (dl_write_begin st) (c64 >>> 32))
        st.buf_idx (dl_write_begin st + 1) (c64 &&& 0xFFFFFFFF)) (st.cur + 1)
      (by omega)
    simp only [dl_queue_u64, dl_write_begin] at *
    rw [show (writeWord (writeWord st st.buf_idx st.cur (c64 >>> 32))
        st.buf_idx (st.cur + 1) (c64 &&& 0xFFFFFFFF)).buf_idx = st.buf_idx
      from rfl] at hpres
    rw [hpres]
    simp [writeWord]
  refine ⟨h1, ?_, h64a, h64b⟩
  rw [h1, hshift]
  rw [show (0x1000000 : Nat) = 2 ^ 24 by norm_num]
  exact Nat.mul_div_cancel c8 (by norm_num)

/-- C9 instance: on the freshly initialized sample state, queueing the
8-bit command 0x25 places 0x25 in the top byte of the first word, and
queueing the 64-bit command 0x123456789ABCDEF0 stores its high word at the
cursor and its low word right after. -/
theorem dl_queue_word_layout_witness :
    (dl_queue_u8 sampleConfig 0x25 (dl_init sampleConfig)).buffers
        (dl_init sampleConfig).buf_idx (dl_init sampleConfig).cur / 0x1000000 = 0x25 ∧
    (dl_queue_u64 sampleConfig 0x123456789ABCDEF0 (dl_init sampleConfig)).buffers
        (dl_init sampleConfig).buf_idx (dl_init sampleConfig).cur =
      0x123456789ABCDEF0 >>> 32 ∧
    (dl_queue_u64 sampleConfig 0x123456789ABCDEF0 (dl_init sampleConfig)).buffers
        (dl_init sampleConfig).buf_idx ((dl_init sampleConfig).cur + 1) =
      0x123456789ABCDEF0 &&& 0xFFFFFFFF :=
  have h := dl_queue_word_layout sampleConfig (dl_init sampleConfig)
    0x25 0x123456789ABCDEF0 (by decide) (by decide)
  ⟨h.2.1, h.2.2.1, h.2.2.2⟩

/-! ## C3 helper lemmas -/

/-- If a resource bit is pending when emission starts, every
barrier-requiring command on that bit in the emitted stream has a barrier
command on the same bit somewhere before it. -/
theorem autosync_use_barrier_before (ops : List AutosyncOp) :
    ∀ (pending : Nat → Bool) (b : Nat), pending b = true →
    ∀ j, (autosyncEmit pending ops).get? j = some (AutosyncCmd.usec b) →
    ∃ k, k < j ∧ (autosyncEmit pending ops).get? k = some (AutosyncCmd.barrier b) := by
  induction ops with
  | nil =>
    intro pending b hb j hj
    simp [autosyncEmit] at hj
  | cons op rest ih =>
    intro pending b hb j hj
    cases op with
    | mark b2 =>
      simp only [autosyncEmit] at hj ⊢
      cases j with
      | zero =>
        rw [List.get?_cons_zero] at hj
        exact absurd hj (by simp)
      | succ j2 =>
        rw [List.get?_cons_succ] at hj
        have hb2 : (fun x => if x = b2 then true else pending x) b = true := by
          by_cases hx : b = b2 <;> simp [hx, hb]
        obtain ⟨k, hk, hbar⟩ := ih _ b hb2 j2 hj
        exact ⟨k + 1, by omega, by rw [List.get?_cons_succ]; exact hbar⟩
    | use b2 =>
      by_cases hp : pending b2 = true
      · simp only [autosyncEmit] at hj ⊢
        rw [if_pos hp] at hj ⊢
        cases j with
        | zero =>
          rw [List.get?_cons_zero] at hj
          exact absurd hj (by simp)
        | succ j2 =>
          cases j2 with
          | zero =>
            rw [List.get?_cons_succ, List.get?_cons_zero] at hj
            have hbb : b2 = b := by
              simpa using hj
            exact ⟨0, by omega, by rw [List.get?_cons_zero, hbb]⟩
          | succ j3 =>
            by_cases hbb : b2 = b
            · exact ⟨0, by omega, by rw [List.get?_cons_zero, hbb]⟩
            · rw [List.get?_cons_succ, List.get?_cons_succ] at hj
              have hb2 : (fun x => if x = b2 then false else pending x) b = true := by
                have hne : b ≠ b2 := fun hx => hbb hx.symm
                simp [hne, hb]
              obtain ⟨k, hk, hbar⟩ := ih _ b hb2 j3 hj
              exact ⟨k + 2, by omega,
                by rw [List.get?_cons_succ, List.get?_cons_succ]; exact hbar⟩
      · simp only [autosyncEmit] at hj ⊢
        rw [if_neg hp] at hj ⊢
        cases j with
        | zero =>
          rw [List.get?_cons_zero] at hj
          have hbb : b2 = b := by simpa using hj
          rw [hbb] at hp
          exact absurd hb hp
        | succ j2 =>
          rw [List.get?_cons_succ] at hj
          obtain ⟨k, hk, hbar⟩ := ih pending b hb j2 hj
          exact ⟨k + 1, by omega, by rw [List.get?_cons_succ]; exact hbar⟩

/-- In any emitted stream, a barrier command on a bit lies strictly between
every marking command on that bit and every later barrier-requiring command
on it. -/
theorem autosync_mark_use_separated (ops : List AutosyncOp) :
    ∀ (pending : Nat → Bool) (b : Nat) (i j : Nat), i < j →
    (autosyncEmit pending ops).get? i = some (AutosyncCmd.markc b) →
    (autosyncEmit pending ops).get? j = some (AutosyncCmd.usec b) →
    ∃ k, i < k ∧ k < j ∧
      (autosyncEmit pending ops).get? k = some (AutosyncCmd.barrier b) := by
  induction ops with
  | nil =>
    intro pending b i j hij hi hj
    simp [autosyncEmit] at hi
  | cons op rest ih =>
    intro pending b i j hij hi hj
    cases op with
    | mark b2 =>
      simp only [autosyncEmit] at hi hj ⊢
      cases i with
      | zero =>
        rw [List.get?_cons_zero] at hi
        have hbb : b2 = b := by simpa using hi
        cases j with
        | zero => omega
        | succ j2 =>
          rw [List.get?_cons_succ] at hj
          have hpb : (fun x => if x = b2 then true else pending x) b = true := by
            subst hbb
            simp
          obtain ⟨k, hk, hbar⟩ := autosync_use_barrier_before rest _ b hpb j2 hj
          exact ⟨k + 1, by omega, by omega,
            by rw [List.get?_cons_succ]; exact hbar⟩
      | succ i2 =>
        cases j with
        | zero => omega
        | succ j2 =>
          rw [List.get?_cons_succ] at hi hj
          obtain ⟨k, hk1, hk2, hbar⟩ := ih _ b i2 j2 (by omega) hi hj
          exact ⟨k + 1, by omega, by omega,
            by rw [List.get?_cons_succ]; exact hbar⟩
    | use b2 =>
      by_cases hp : pending b2 = true
      · simp only [autosyncEmit] at hi hj ⊢
        rw [if_pos hp] at hi hj ⊢
        cases i with
        | zero =>
          rw [List.get?_cons_zero] at hi
          exact absurd hi (by simp)
        | succ i2 =>
          cases i2 with
          | zero =>
            rw [List.get?_cons_succ, List.get?_cons_zero] at hi
            exact absurd hi (by simp)
          | succ i3 =>
            cases j with
            | zero => omega
            | succ j2 =>
              cases j2 with
              | zero => omega
              | succ j3 =>
                rw [List.get?_cons_succ, List.get?_cons_succ] at hi hj
                obtain ⟨k, hk1, hk2, hbar⟩ := ih _ b i3 j3 (by omega) hi hj
                exact ⟨k + 2, by omega, by omega,
                  by rw [List.get?_cons_succ, List.get?_cons_succ]; exact hbar⟩
      · simp only [autosyncEmit] at hi hj ⊢
        rw [if_neg hp] at hi hj ⊢
        cases i with
        | zero =>
          rw [List.get?_cons_zero] at hi
          exact absurd hi (by simp)
        | succ i2 =>
          cases j with
          | zero => omega
          | succ j2 =>
            rw [List.get?_cons_succ] at hi hj
            obtain ⟨k, hk1, hk2, hbar⟩ := ih pending b i2 j2 (by omega) hi hj
            exact ⟨k + 1, by omega, by omega,
              by rw [List.get?_cons_succ]; exact hbar⟩

/-- Every barrier command in an emitted stream is justified: if the bit was
not pending initially, a marking command on the same bit precedes the
barrier with no other barrier on that bit in between; if the bit was
pending initially, either such a marking command exists or the barrier is
the first barrier on that bit in the stream. -/
theorem autosync_barrier_needs_mark (ops : List AutosyncOp) :
    ∀ (pending : Nat → Bool) (b : Nat),
    (pending b = false →
      ∀ k, (autosyncEmit pending ops).get? k = some (AutosyncCmd.barrier b) →
      ∃ i, i < k ∧ (autosyncEmit pending ops).get? i = some (AutosyncCmd.markc b) ∧
        ∀ m, i < m → m < k →
          (autosyncEmit pending ops).get? m ≠ some (AutosyncCmd.barrier b)) ∧
    (pending b = true →
      ∀ k, (autosyncEmit pending ops).get? k = some (AutosyncCmd.barrier b) →
      (∃ i, i < k ∧ (autosyncEmit pending ops).get? i = some (AutosyncCmd.markc b) ∧
        ∀ m, i < m → m < k →
          (autosyncEmit pending ops).get? m ≠ some (AutosyncCmd.barrier b)) ∨
      ∀ m, m < k →
        (autosyncEmit pending ops).get? m ≠ some (AutosyncCmd.barrier b)) := by
  induction ops with
  | nil =>
    intro pending b
    constructor
    · intro _ k hk
      simp [autosyncEmit] at hk
    · intro _ k hk
      simp [autosyncEmit] at hk
  | cons op rest ih =>
    intro pending b
    cases op with
    | mark b2 =>
      constructor
      · intro hpf k hk
        simp only [autosyncEmit] at hk ⊢
        cases k with
        | zero =>
          rw [List.get?_cons_zero] at hk
          exact absurd hk (by simp)
        | succ k2 =>
          rw [List.get?_cons_succ] at hk
          by_cases hbb : b2 = b
          · have hpt2 : (fun x => if x = b2 then true else pending x) b = true := by
              subst hbb
              simp
            rcases (ih _ b).2 hpt2 k2 hk with ⟨i, hik, hmark, hbetw⟩ | hnone
            · refine ⟨i + 1, by omega, by rw [List.get?_cons_succ]; exact hmark, ?_⟩
              intro m hm1 hm2
              cases m with
              | zero => rw [List.get?_cons_zero]; simp
              | succ m2 =>
                rw [List.get?_cons_succ]
                exact hbetw m2 (by omega) (by omega)
            · refine ⟨0, by omega, by rw [List.get?_cons_zero, hbb], ?_⟩
              intro m hm1 hm2
              cases m with
              | zero => exact absurd hm1 (by omega)
              | succ m2 =>
                rw [List.get?_cons_succ]
                exact hnone m2 (by omega)
          · have hpf2 : (fun x => if x = b2 then true else pending x) b = false := by
              have hne : b ≠ b2 := fun hx => hbb hx.symm
              simp [hne, hpf]
            obtain ⟨i, hik, hmark, hbetw⟩ := (ih _ b).1 hpf2 k2 hk
            refine ⟨i + 1, by omega, by rw [List.get?_cons_succ]; exact hmark, ?_⟩
            intro m hm1 hm2
            cases m with
            | zero => rw [List.get?_cons_zero]; simp
            | succ m2 =>
              rw [List.get?_cons_succ]
              exact hbetw m2 (by omega) (by omega)
      · intro hpt k hk
        simp only [autosyncEmit] at hk ⊢
        cases k with
        | zero =>
          rw [List.get?_cons_zero] at hk
          exact absurd hk (by simp)
        | succ k2 =>
          rw [List.get?_cons_succ] at hk
          have hpt2 : (fun x => if x = b2 then true else pending x) b = true := by
            by_cases hx : b = b2 <;> simp [hx, hpt]
          rcases (ih _ b).2 hpt2 k2 hk with ⟨i, hik, hmark, hbetw⟩ | hnone
          · left
            refine ⟨i + 1, by omega, by rw [List.get?_cons_succ]; exact hmark, ?_⟩
            intro m hm1 hm2
            cases m with
            | zero => rw [List.get?_cons_zero]; simp
            | succ m2 =>
              rw [List.get?_cons_succ]
              exact hbetw m2 (by omega) (by omega)
          · by_cases hbb : b2 = b
            · left
              refine ⟨0, by omega, by rw [List.get?_cons_zero, hbb], ?_⟩
              intro m hm1 hm2
              cases m with
              | zero => exact absurd hm1 (by omega)
              | succ m2 =>
                rw [List.get?_cons_succ]
                exact hnone m2 (by omega)
            · right
              intro m hm
              cases m with
              | zero => rw [List.get?_cons_zero]; simp
              | succ m2 =>
                rw [List.get?_cons_succ]
                exact hnone m2 (by omega)
    | use b2 =>
      by_cases hp : pending b2 = true
      · constructor
        · intro hpf k hk
          have hbb : b2 ≠ b := by
            intro hx
            rw [hx, hpf] at hp
            cases hp
          simp only [autosyncEmit] at hk ⊢
          rw [if_pos hp] at hk ⊢
          cases k with
          | zero =>
            rw [List.get?_cons_zero] at hk
            have : b2 = b := by simpa using hk
            exact absurd this hbb
          | succ k2 =>
            cases k2 with
            | zero =>
              rw [List.get?_cons_succ, List.get?_cons_zero] at hk
              exact absurd hk (by simp)
            | succ k3 =>
              rw [List.get?_cons_succ, List.get?_cons_succ] at hk
              have hpf2 : (fun x => if x = b2 then false else pending x) b = false := by
                have hne : b ≠ b2 := fun hx => hbb hx.symm
                simp [hne, hpf]
              obtain ⟨i, hik, hmark, hbetw⟩ := (ih _ b).1 hpf2 k3 hk
              refine ⟨i + 2, by omega,
                by rw [List.get?_cons_succ, List.get?_cons_succ]; exact hmark, ?_⟩
              intro m hm1 hm2
              cases m with
              | zero => exact absurd hm1 (by omega)
              | succ m2 =>
                cases m2 with
                | zero => exact absurd hm1 (by omega)
                | succ m3 =>
                  rw [List.get?_cons_succ, List.get?_cons_succ]
                  exact hbetw m3 (by omega) (by omega)
        · intro hpt k hk
          simp only [autosyncEmit] at hk ⊢
          rw [if_pos hp] at hk ⊢
          cases k with
          | zero =>
            right
            intro m hm
            exact absurd hm (by omega)
          | succ k2 =>
            cases k2 with
            | zero =>
              rw [List.get?_cons_succ, List.get?_cons_zero] at hk
              exact absurd hk (by simp)
            | succ k3 =>
              rw [List.get?_cons_succ, List.get?_cons_succ] at hk
              by_cases hbb : b2 = b
              · have hpf2 : (fun x => if x = b2 then false else pending x) b = false := by
                  subst hbb
                  simp
                obtain ⟨i, hik, hmark, hbetw⟩ := (ih _ b).1 hpf2 k3 hk
                left
                refine ⟨i + 2, by omega,
                  by rw [List.get?_cons_succ, List.get?_cons_succ]; exact hmark, ?_⟩
                intro m hm1 hm2
                cases m with
                | zero => exact absurd hm1 (by omega)
                | succ m2 =>
                  cases m2 with
                  | zero => exact absurd hm1 (by omega)
                  | succ m3 =>
                    rw [List.get?_cons_succ, List.get?_cons_succ]
                    exact hbetw m3 (by omega) (by omega)
              · have hpt2 : (fun x => if x = b2 then false else pending x) b = true := by
                  have hne : b ≠ b2 := fun hx => hbb hx.symm
                  simp [hne, hpt]
                rcases (ih _ b).2 hpt2 k3 hk with ⟨i, hik, hmark, hbetw⟩ | hnone
                · left
                  refine ⟨i + 2, by omega,
                    by rw [List.get?_cons_succ, List.get?_cons_succ]; exact hmark, ?_⟩
                  intro m hm1 hm2
                  cases m with
                  | zero => exact absurd hm1 (by omega)
                  | succ m2 =>
                    cases m2 with
                    | zero => exact absurd hm1 (by omega)
                    | succ m3 =>
                      rw [List.get?_cons_succ, List.get?_cons_succ]
                      exact hbetw m3 (by omega) (by omega)
                · right
                  intro m hm
                  cases m with
                  | zero =>
                    rw [List.get?_cons_zero]
                    simp [hbb]
                  | succ m2 =>
                    cases m2 with
                    | zero =>
                      rw [List.get?_cons_succ, List.get?_cons_zero]
                      simp
                    | succ m3 =>
                      rw [List.get?_cons_succ, List.get?_cons_succ]
                      exact hnone m3 (by omega)
      · constructor
        · intro hpf k hk
          simp only [autosyncEmit] at hk ⊢
          rw [if_neg hp] at hk ⊢
          cases k with
          | zero =>
            rw [List.get?_cons_zero] at hk
            exact absurd hk (by simp)
          | succ k2 =>
            rw [List.get?_cons_succ] at hk
            obtain ⟨i, hik, hmark, hbetw⟩ := (ih pending b).1 hpf k2 hk
            refine ⟨i + 1, by omega, by rw [List.get?_cons_succ]; exact hmark, ?_⟩
            intro m hm1 hm2
            cases m with
            | zero => exact absurd hm1 (by omega)
            | succ m2 =>
              rw [List.get?_cons_succ]
              exact hbetw m2 (by omega) (by omega)
        · intro hpt k hk
          simp only [autosyncEmit] at hk ⊢
          rw [if_neg hp] at hk ⊢
          cases k with
          | zero =>
            rw [List.get?_cons_zero] at hk
            exact absurd hk (by simp)
          | succ k2 =>
            rw [List.get?_cons_succ] at hk
            rcases (ih pending b).2 hpt k2 hk with ⟨i, hik, hmark, hbetw⟩ | hnone
            · left
              refine ⟨i + 1, by omega, by rw [List.get?_cons_succ]; exact hmark, ?_⟩
              intro m hm1 hm2
              cases m with
              | zero => exact absurd hm1 (by omega)
              | succ m2 =>
                rw [List.get?_cons_succ]
                exact hbetw m2 (by omega) (by omega)
            · right
              intro m hm
              cases m with
              | zero => rw [List.get?_cons_zero]; simp
              | succ m2 =>
                rw [List.get?_cons_succ]
                exact hnone m2 (by omega)

/-! ## C3 -/

/-- C3 (the autosync tracker is modelled from the spec, since rdpq.c is not
among the sources): for every interleaving of marking and barrier-requiring
operations and every resource bit (tile bits 0-7, texture-memory bits 8-15,
pipeline bit 16), the emitted command stream contains a barrier command on
that bit strictly between any marking command and any later
barrier-requiring command on the same bit, and every barrier command on a
bit is preceded by a marking command on that bit with no other barrier on
that bit in between, so no barrier appears unless a mark preceded it since
the last barrier. -/
theorem autosync_barrier_placement (ops : List AutosyncOp) (b : Nat)
    (hb : b < 17) :
    (∀ i j, i < j →
      (autosyncEmit autosyncInit ops).get? i = some (AutosyncCmd.markc b) →
      (autosyncEmit autosyncInit ops).get? j = some (AutosyncCmd.usec b) →
      ∃ k, i < k ∧ k < j ∧
        (autosyncEmit autosyncInit ops).get? k = some (AutosyncCmd.barrier b)) ∧
    (∀ k, (autosyncEmit autosyncInit ops).get? k = some (AutosyncCmd.barrier b) →
      ∃ i, i < k ∧
        (autosyncEmit autosyncInit ops).get? i = some (AutosyncCmd.markc b) ∧
        ∀ m, i < m → m < k →
          (autosyncEmit autosyncInit ops).get? m ≠ some (AutosyncCmd.barrier b)) := by
  constructor
  · intro i j hij hi hj
    exact autosync_mark_use_separated ops autosyncInit b i j hij hi hj
  · exact (autosync_barrier_needs_mark ops autosyncInit b).1 rfl

/-- C3 instance: marking bit 0 and then issuing a barrier-requiring use of
bit 0 yields the stream [markc 0, barrier 0, usec 0]; the theorem applied
at positions 0 and 2 produces the barrier strictly in between. -/
theorem autosync_barrier_placement_witness :
    (0 : Nat) < 17 ∧
    ∃ k, 0 < k ∧ k < 2 ∧
      (autosyncEmit autosyncInit
        [AutosyncOp.mark 0, AutosyncOp.use 0]).get? k =
        some (AutosyncCmd.barrier 0) :=
  ⟨by decide,
   (autosync_barrier_placement [AutosyncOp.mark 0, AutosyncOp.use 0] 0
      (by decide)).1 0 2 (by decide) (by rfl) (by rfl)⟩
